import Mathlib

/-!
Shallow embedding of the document-similarity and daily-contract-agent core of
the DeepRunnerAi repository (src/similarity_detector.py and src/daily_agent.py),
with proofs settling the frozen claims C1 to C10.

Modelling conventions:
- Python strings are Lean `String`/`List Char`, with the regex character
  classes the source uses (\s, \w, [^\n], [A-Za-z0-9\s,]) modelled on their
  ASCII fragment.
- Python datetimes are integer second counts (`Int`); dates parsed by
  datetime.strptime are midnights, mapped to seconds through the
  proleptic-Gregorian ordinal (exactly datetime.toordinal), so that
  timedelta comparison and the flooring .days attribute are exact.
- Float similarity scores are exact rationals; numpy reductions that raise
  on empty arrays are modelled with `Except`.
- Python dicts preserve insertion order, modelled as association lists.
-/

/-! ## Python string primitives (src helpers) -/

/-- Python regex class \s, ASCII fragment: space (32), and tab, newline,
vertical tab, form feed, carriage return (code points 9 to 13). -/
def isPySpace (c : Char) : Bool :=
  c.toNat == 32 || (9 ≤ c.toNat && c.toNat ≤ 13)

/-- ASCII upper-case letter, by code point. -/
def pyIsUpper (c : Char) : Bool := 65 ≤ c.toNat && c.toNat ≤ 90

/-- ASCII lower-case letter, by code point. -/
def pyIsLower (c : Char) : Bool := 97 ≤ c.toNat && c.toNat ≤ 122

/-- ASCII digit, by code point. -/
def pyIsDigit (c : Char) : Bool := 48 ≤ c.toNat && c.toNat ≤ 57

/-- Python str.lower, ASCII fragment: maps A-Z to a-z and fixes every other
character. -/
def pyToLower (c : Char) : Char :=
  if 65 ≤ c.toNat && c.toNat ≤ 90 then Char.ofNat (c.toNat + 32) else c

/-- Python regex class \w, ASCII fragment: letters, digits and underscore. -/
def isPyWord (c : Char) : Bool := pyIsUpper c || pyIsLower c || pyIsDigit c || c == '_'

/-- The punctuation kept by _clean_text: the set .,;:!?- . -/
def keptPunct : List Char := ['.', ',', ';', ':', '!', '?', '-']

/-- A character survives re.sub(r'[^\w\s.,;:!?-]', '', text) exactly when it is
a word character, whitespace, or kept punctuation. -/
def keepChar (c : Char) : Bool := isPyWord c || isPySpace c || keptPunct.contains c

/-- re.sub(r'\s+', ' ', text): every maximal whitespace run becomes one space.
The Bool argument records whether the previous character was whitespace. -/
def collapseWsAux : Bool → List Char → List Char
  | _, [] => []
  | true, c :: rest =>
    if isPySpace c then collapseWsAux true rest else c :: collapseWsAux false rest
  | false, c :: rest =>
    if isPySpace c then ' ' :: collapseWsAux true rest else c :: collapseWsAux false rest

/-- The whitespace-collapsing stage of _clean_text. -/
def collapseWs (l : List Char) : List Char := collapseWsAux false l

/-- Python str.strip(): drop leading and trailing whitespace. -/
def pyStrip (l : List Char) : List Char :=
  ((l.dropWhile isPySpace).reverse.dropWhile isPySpace).reverse

/-- DocumentSimilarityDetector._clean_text: collapse whitespace runs, remove
characters outside \w, \s and the kept punctuation, lower-case, strip. -/
def clean_text (s : String) : String :=
  String.mk (pyStrip (((collapseWs s.data).filter keepChar).map pyToLower))

/-- Character set the C5 claim allows in _clean_text output (no underscore). -/
def specAllowed (c : Char) : Bool :=
  pyIsLower c || pyIsDigit c || c == ' ' || keptPunct.contains c

/-- Character set of the amended C5 claim: the code keeps underscores because
regex \w matches them. -/
def allowedOut (c : Char) : Bool :=
  pyIsLower c || pyIsDigit c || c == '_' || c == ' ' || keptPunct.contains c

/-! ## Lemmas about the text normalizer -/

theorem toNat_pyToLower_of_upper {c : Char} (h : (65 ≤ c.toNat && c.toNat ≤ 90) = true) :
    (pyToLower c).toNat = c.toNat + 32 := by
  simp only [Bool.and_eq_true, decide_eq_true_eq] at h
  have hv : (c.toNat + 32).isValidChar := Or.inl (by omega)
  simp only [pyToLower, Bool.and_eq_true, decide_eq_true_eq, if_pos h]
  rw [Char.ofNat, dif_pos hv]
  rfl

theorem pyToLower_of_not_upper {c : Char} (h : (65 ≤ c.toNat && c.toNat ≤ 90) = false) :
    pyToLower c = c := by
  simp only [pyToLower, h]
  rfl

theorem allowedOut_pyToLower_of_word {c : Char} (h : isPyWord c = true) :
    allowedOut (pyToLower c) = true := by
  simp only [isPyWord, Bool.or_eq_true, beq_iff_eq] at h
  rcases h with ((hu | hl) | hd) | hu
  · have ht := toNat_pyToLower_of_upper hu
    simp only [pyIsUpper, Bool.and_eq_true, decide_eq_true_eq] at hu
    simp only [allowedOut, pyIsLower, Bool.or_eq_true, Bool.and_eq_true, decide_eq_true_eq, ht]
    exact Or.inl (Or.inl (Or.inl (Or.inl ⟨by omega, by omega⟩)))
  · simp only [pyIsLower, Bool.and_eq_true, decide_eq_true_eq] at hl
    rw [pyToLower_of_not_upper (by simp only [Bool.and_eq_false_iff, decide_eq_false_iff_not]; omega)]
    simp only [allowedOut, pyIsLower, Bool.or_eq_true, Bool.and_eq_true, decide_eq_true_eq]
    exact Or.inl (Or.inl (Or.inl (Or.inl ⟨by omega, by omega⟩)))
  · simp only [pyIsDigit, Bool.and_eq_true, decide_eq_true_eq] at hd
    rw [pyToLower_of_not_upper (by simp only [Bool.and_eq_false_iff, decide_eq_false_iff_not]; omega)]
    simp only [allowedOut, pyIsDigit, Bool.or_eq_true, Bool.and_eq_true, decide_eq_true_eq]
    exact Or.inl (Or.inl (Or.inl (Or.inr ⟨by omega, by omega⟩)))
  · subst hu
    decide

theorem pyToLower_of_punct {c : Char} (h : keptPunct.contains c = true) :
    pyToLower c = c := by
  have hm : c ∈ keptPunct := by simpa using h
  fin_cases hm <;> decide

theorem mem_collapseWsAux_space {l : List Char} :
    ∀ {b : Bool} {c : Char}, c ∈ collapseWsAux b l → isPySpace c = true → c = ' ' := by
  induction l with
  | nil => intro b c h _; cases b <;> simp [collapseWsAux] at h
  | cons d rest ih =>
    intro b c h hsp
    by_cases hd : isPySpace d = true
    · cases b <;> simp only [collapseWsAux] at h <;> rw [if_pos hd] at h
      · rcases List.mem_cons.mp h with rfl | h
        · rfl
        · exact ih h hsp
      · exact ih h hsp
    · cases b <;> simp only [collapseWsAux] at h <;> rw [if_neg hd] at h <;>
        rcases List.mem_cons.mp h with rfl | h
      · exact absurd hsp hd
      · exact ih h hsp
      · exact absurd hsp hd
      · exact ih h hsp

theorem collapseWsAux_true_head {l : List Char} :
    ∀ {c : Char}, (collapseWsAux true l).head? = some c → isPySpace c = false := by
  induction l with
  | nil => intro c h; simp [collapseWsAux] at h
  | cons d rest ih =>
    intro c h
    by_cases hd : isPySpace d = true
    · simp only [collapseWsAux] at h
      rw [if_pos hd] at h
      exact ih h
    · simp only [collapseWsAux] at h
      rw [if_neg hd] at h
      simp only [List.head?_cons, Option.some.injEq] at h
      subst h
      exact Bool.eq_false_iff.mpr hd

theorem chain_collapseWsAux (l : List Char) :
    ∀ b, (collapseWsAux b l).Chain' (fun a c => ¬(isPySpace a = true ∧ isPySpace c = true)) := by
  induction l with
  | nil => intro b; cases b <;> simp [collapseWsAux]
  | cons d rest ih =>
    intro b
    by_cases hd : isPySpace d = true
    · cases b
      · simp only [collapseWsAux]
        rw [if_pos hd, List.chain'_cons']
        refine ⟨?_, ih true⟩
        intro y hy
        have := collapseWsAux_true_head hy
        simp [this]
      · simp only [collapseWsAux]
        rw [if_pos hd]
        exact ih true
    · cases b <;> simp only [collapseWsAux] <;> rw [if_neg hd, List.chain'_cons']
      · exact ⟨fun y _ => by simp [hd], ih false⟩
      · exact ⟨fun y _ => by simp [hd], ih false⟩

theorem mem_pyStrip {l : List Char} {c : Char} (h : c ∈ pyStrip l) : c ∈ l := by
  simp only [pyStrip, List.mem_reverse] at h
  have h1 := (List.dropWhile_sublist (l := (l.dropWhile isPySpace).reverse) (p := isPySpace)).subset h
  rw [List.mem_reverse] at h1
  exact (List.dropWhile_sublist (l := l) (p := isPySpace)).subset h1

/-! ## Claim C5 -/

/-- C5 counterexample: the claim says _clean_text output contains only
lower-case letters, digits, spaces and the punctuation .,;:!?- ; but regex \w
keeps underscores, so clean_text of the string a_b returns it unchanged and the
output contains an underscore, outside the claimed character set. -/
theorem C5_counterexample :
    clean_text "a_b" = "a_b" ∧ '_' ∈ (clean_text "a_b").data ∧ specAllowed '_' = false := by
  refine ⟨by decide, by decide, by decide⟩

/-- C5 (amended): _clean_text is total, its output contains only lower-case
letters, digits, underscores, spaces, and the punctuation .,;:!?- ; and the
whitespace-collapsing stage replaces every maximal whitespace run of the input
with a single space, so it never leaves two adjacent whitespace characters
(later character filtering can still juxtapose two such spaces in the final
output). -/
theorem C5_amended_clean_text_charset (s : String) :
    (∀ c ∈ (clean_text s).data, allowedOut c = true) ∧
      (collapseWs s.data).Chain' (fun a c => ¬(isPySpace a = true ∧ isPySpace c = true)) := by
  constructor
  · intro c hc
    have hc' : c ∈ ((collapseWs s.data).filter keepChar).map pyToLower := mem_pyStrip hc
    simp only [List.mem_map] at hc'
    obtain ⟨d, hd, rfl⟩ := hc'
    rw [List.mem_filter] at hd
    obtain ⟨hmem, hkeep⟩ := hd
    simp only [keepChar, Bool.or_eq_true] at hkeep
    rcases hkeep with (hw | hs) | hp
    · exact allowedOut_pyToLower_of_word hw
    · have : d = ' ' := mem_collapseWsAux_space hmem hs
      subst this
      decide
    · rw [pyToLower_of_punct hp]
      simp only [allowedOut, Bool.or_eq_true]
      exact Or.inr hp
  · exact chain_collapseWsAux s.data false

/-- C5 witness: evaluating the amended theorem on a concrete string. -/
theorem C5_witness : allowedOut 'a' = true :=
  (C5_amended_clean_text_charset "A b").1 'a' (by decide)

/-! ## Claim C4: DailyContractAgent._get_urgency_level -/

/-- DailyContractAgent._get_urgency_level, a pure function of the signed
integer days_until_expiry. -/
def get_urgency_level (d : Int) : String :=
  if d ≤ 7 then "CRITICAL"
  else if d ≤ 14 then "HIGH"
  else if d ≤ 30 then "MEDIUM"
  else "LOW"

/-- C4: the urgency mapping is a total function of the signed integer
days_until_expiry; for every integer d exactly one of the four tiers is
returned, with d ≤ 7 CRITICAL, 8 ≤ d ≤ 14 HIGH, 15 ≤ d ≤ 30 MEDIUM,
d > 30 LOW; in particular the boundary values 7, 14, 30 map to CRITICAL,
HIGH, MEDIUM. -/
theorem C4_urgency_total_partition :
    (∀ d : Int,
      (get_urgency_level d = "CRITICAL" ↔ d ≤ 7) ∧
      (get_urgency_level d = "HIGH" ↔ 8 ≤ d ∧ d ≤ 14) ∧
      (get_urgency_level d = "MEDIUM" ↔ 15 ≤ d ∧ d ≤ 30) ∧
      (get_urgency_level d = "LOW" ↔ 30 < d)) ∧
    get_urgency_level 7 = "CRITICAL" ∧
    get_urgency_level 14 = "HIGH" ∧
    get_urgency_level 30 = "MEDIUM" := by
  refine ⟨?_, by decide, by decide, by decide⟩
  intro d
  unfold get_urgency_level
  split_ifs with h1 h2 h3
  · exact ⟨iff_of_true rfl h1, iff_of_false (by decide) (by omega),
      iff_of_false (by decide) (by omega), iff_of_false (by decide) (by omega)⟩
  · exact ⟨iff_of_false (by decide) (by omega), iff_of_true rfl ⟨by omega, h2⟩,
      iff_of_false (by decide) (by omega), iff_of_false (by decide) (by omega)⟩
  · exact ⟨iff_of_false (by decide) (by omega), iff_of_false (by decide) (by omega),
      iff_of_true rfl ⟨by omega, h3⟩, iff_of_false (by decide) (by omega)⟩
  · exact ⟨iff_of_false (by decide) (by omega), iff_of_false (by decide) (by omega),
      iff_of_false (by decide) (by omega), iff_of_true rfl (by omega)⟩

/-- C4 witness: the boundary values and a negative day count evaluated through
the theorem. -/
theorem C4_witness :
    get_urgency_level (-3) = "CRITICAL" ∧ get_urgency_level 14 = "HIGH" ∧
    get_urgency_level 30 = "MEDIUM" :=
  ⟨((C4_urgency_total_partition.1 (-3)).1).mpr (by decide),
    C4_urgency_total_partition.2.2.1, C4_urgency_total_partition.2.2.2⟩

/-! ## Python stable sort

list.sort(key=k) and sorted(key=k, reverse=True) are documented to be stable:
equal keys keep their original relative order. A stable sort by key is exactly
a sort by the lexicographic order on (key, original position), so the model
tags each element with its position, sorts by that order, and drops the tags. -/

/-- Lexicographic order on (original position, element) pairs: first by key,
ties by position. -/
def keyIdxLe {α β : Type} [LinearOrder β] (key : α → β) (a b : Nat × α) : Prop :=
  key a.2 < key b.2 ∨ (key a.2 = key b.2 ∧ a.1 ≤ b.1)

instance keyIdxLe.instDecidable {α β : Type} [LinearOrder β] (key : α → β) :
    DecidableRel (keyIdxLe key) := by
  intro a b
  unfold keyIdxLe
  infer_instance

instance keyIdxLe.instIsTotal {α β : Type} [LinearOrder β] (key : α → β) :
    IsTotal (Nat × α) (keyIdxLe key) := by
  constructor
  intro a b
  unfold keyIdxLe
  rcases lt_trichotomy (key a.2) (key b.2) with h | h | h
  · exact Or.inl (Or.inl h)
  · rcases Nat.le_total a.1 b.1 with h1 | h1
    · exact Or.inl (Or.inr ⟨h, h1⟩)
    · exact Or.inr (Or.inr ⟨h.symm, h1⟩)
  · exact Or.inr (Or.inl h)

instance keyIdxLe.instIsTrans {α β : Type} [LinearOrder β] (key : α → β) :
    IsTrans (Nat × α) (keyIdxLe key) := by
  constructor
  intro a b c hab hbc
  unfold keyIdxLe at *
  rcases hab with h1 | ⟨h1, h1i⟩ <;> rcases hbc with h2 | ⟨h2, h2i⟩
  · exact Or.inl (h1.trans h2)
  · exact Or.inl (h2 ▸ h1)
  · exact Or.inl (h1 ▸ h2)
  · exact Or.inr ⟨h1.trans h2, h1i.trans h2i⟩

/-- Python list.sort(key=key): stable ascending sort by key. -/
def pySortByKey {α β : Type} [LinearOrder β] (key : α → β) (l : List α) : List α :=
  (l.enum.insertionSort (keyIdxLe key)).map Prod.snd

/-- Python list.sort(key=key, reverse=True): stable descending sort by key. -/
def pySortByKeyDesc {α β : Type} [LinearOrder β] (key : α → β) (l : List α) : List α :=
  pySortByKey (fun a => OrderDual.toDual (key a)) l

theorem pySortByKey_perm {α β : Type} [LinearOrder β] (key : α → β) (l : List α) :
    (pySortByKey key l).Perm l := by
  have h := (List.perm_insertionSort (keyIdxLe key) l.enum).map Prod.snd
  rwa [List.enum_map_snd] at h

theorem pySortByKeyDesc_perm {α β : Type} [LinearOrder β] (key : α → β) (l : List α) :
    (pySortByKeyDesc key l).Perm l :=
  pySortByKey_perm _ l

theorem pySortByKey_sorted {α β : Type} [LinearOrder β] (key : α → β) (l : List α) :
    (pySortByKey key l).Pairwise (fun a b => key a ≤ key b) := by
  have hs := List.sorted_insertionSort (keyIdxLe key) l.enum
  refine List.Pairwise.map Prod.snd ?_ hs
  intro a b hab
  rcases hab with h | ⟨h, _⟩
  · exact le_of_lt h
  · exact le_of_eq h

theorem pairwise_fst_lt_enum {α : Type} (l : List α) :
    l.enum.Pairwise (fun a b => a.1 < b.1) := by
  have h : (l.enum.map Prod.fst).Pairwise (· < ·) := by
    rw [List.enum_map_fst]
    exact List.pairwise_lt_range _
  exact (List.pairwise_map.mp h)

/-- Stability of the modelled sort: restricted to any single key value, the
sorted list is the original list. -/
theorem pySortByKey_stable {α β : Type} [LinearOrder β] [DecidableEq α]
    (key : α → β) (l : List α) (v : β) :
    (pySortByKey key l).filter (fun a => decide (key a = v)) =
      l.filter (fun a => decide (key a = v)) := by
  set p : α → Bool := fun a => decide (key a = v) with hp
  set t := l.enum.insertionSort (keyIdxLe key) with ht
  have hmain : t.filter (p ∘ Prod.snd) = l.enum.filter (p ∘ Prod.snd) := by
    have hperm : (t.filter (p ∘ Prod.snd)).Perm (l.enum.filter (p ∘ Prod.snd)) :=
      (List.perm_insertionSort (keyIdxLe key) l.enum).filter _
    have hsort2 : (l.enum.filter (p ∘ Prod.snd)).Pairwise (fun a b => a.1 < b.1) :=
      (pairwise_fst_lt_enum l).filter _
    have hsort1 : (t.filter (p ∘ Prod.snd)).Pairwise (fun a b => a.1 < b.1) := by
      have hle : (t.filter (p ∘ Prod.snd)).Pairwise (keyIdxLe key) :=
        (List.sorted_insertionSort (keyIdxLe key) l.enum).filter _
      have hnd : ((t.filter (p ∘ Prod.snd)).map Prod.fst).Nodup := by
        refine List.Nodup.sublist (List.Sublist.map Prod.fst (List.filter_sublist t)) ?_
        have : (t.map Prod.fst).Perm (l.enum.map Prod.fst) :=
          (List.perm_insertionSort (keyIdxLe key) l.enum).map Prod.fst
        exact (this.nodup_iff).mpr (List.nodup_enum_map_fst l)
      have hne : (t.filter (p ∘ Prod.snd)).Pairwise (fun a b => a.1 ≠ b.1) :=
        List.pairwise_map.mp hnd
      have hkey : ∀ a ∈ t.filter (p ∘ Prod.snd), key a.2 = v := by
        intro a ha
        have := List.of_mem_filter ha
        simpa [hp] using this
      refine ((hle.and hne).imp_of_mem ?_)
      intro a b ha hb hab
      rcases hab.1 with h | ⟨_, hle'⟩
      · rw [hkey a ha, hkey b hb] at h
        exact absurd h (lt_irrefl v)
      · exact lt_of_le_of_ne hle' hab.2
    haveI : IsAntisymm (Nat × α) (fun a b => a.1 < b.1) :=
      ⟨fun a b h1 h2 => absurd (h1.trans h2) (lt_irrefl _)⟩
    exact List.eq_of_perm_of_sorted hperm hsort1 hsort2
  calc (pySortByKey key l).filter p
      = (t.filter (p ∘ Prod.snd)).map Prod.snd := List.filter_map Prod.snd t
    _ = (l.enum.filter (p ∘ Prod.snd)).map Prod.snd := by rw [hmain]
    _ = (l.enum.map Prod.snd).filter p := (List.filter_map Prod.snd l.enum).symm
    _ = l.filter p := by rw [List.enum_map_snd]

/-! ## DocumentSimilarityDetector: similarity queries (C3, C9)

The built index is a list of per-document metadata entries plus the cosine
similarity matrix of the TF-IDF vectors, abstracted as a rational-valued
function of two indices (the code only ever reads matrix entries and compares
them to thresholds). -/

/-- The metadata the claims consult for one indexed document. -/
structure IndexEntry where
  doc_id : Option String
  file_name : Option String
deriving DecidableEq

/-- The id of the entry at index i: the metadata doc_id when present, else
the fallback string doc_ followed by the index. -/
def docIdOf (entries : List IndexEntry) (i : Nat) : String :=
  match entries[i]? with
  | some e => e.doc_id.getD ("doc_" ++ toString i)
  | none => "doc_" ++ toString i

/-- DocumentSimilarityDetector._find_document_index: first index whose
metadata doc_id equals the queried id, else None. -/
def find_document_index (entries : List IndexEntry) (docId : String) : Option Nat :=
  (entries.enum.find? (fun p => p.2.doc_id == some docId)).map Prod.fst

/-- One entry of a find_similar_documents result (the claim-relevant fields;
the code also copies file_name, contract_type, companies, a content preview
and the raw metadata into the result dict). -/
structure SimEntry where
  document_id : String
  similarity_score : ℚ
deriving DecidableEq

/-- DocumentSimilarityDetector.find_similar_documents on a built index:
collect every other document whose similarity reaches the threshold, sort by
score descending (stable), truncate to n_results. Unknown ids give []. -/
def find_similar_documents (entries : List IndexEntry) (sim : Nat → Nat → ℚ)
    (docId : String) (nResults : Nat) (threshold : ℚ) : List SimEntry :=
  match find_document_index entries docId with
  | none => []
  | some di =>
    let cands := (List.range entries.length).filterMap (fun i =>
      if i ≠ di ∧ threshold ≤ sim di i then
        some { document_id := docIdOf entries i, similarity_score := sim di i }
      else none)
    (pySortByKeyDesc (fun e => e.similarity_score) cands).take nResults

/-- C9: for every document id not present in the built index, the similarity
query returns an empty list (and, being total, does not raise), for any
n_results and threshold. -/
theorem C9_unknown_id_empty (entries : List IndexEntry) (sim : Nat → Nat → ℚ)
    (docId : String) (k : Nat) (t : ℚ)
    (h : ∀ e ∈ entries, e.doc_id ≠ some docId) :
    find_similar_documents entries sim docId k t = [] := by
  have hfind : find_document_index entries docId = none := by
    unfold find_document_index
    rw [Option.map_eq_none', List.find?_eq_none]
    intro p hp
    have hmem : p.2 ∈ entries := by
      have := List.mem_map_of_mem Prod.snd hp
      rwa [List.enum_map_snd] at this
    simp only [beq_iff_eq]
    exact h p.2 hmem
  unfold find_similar_documents
  rw [hfind]

/-- C9 witness: a concrete one-entry index queried with an absent id. -/
theorem C9_witness :
    find_similar_documents [{ doc_id := some "a", file_name := none }]
      (fun _ _ => 1) "b" 5 0 = [] :=
  C9_unknown_id_empty _ _ _ _ _ (by decide)

/-- C3: on a built index whose document ids are pairwise distinct, a
similarity query for a present document never returns an entry carrying the
queried document id, for any n_results and threshold. -/
theorem C3_similar_excludes_self (entries : List IndexEntry) (sim : Nat → Nat → ℚ)
    (docId : String) (k : Nat) (t : ℚ)
    (hnodup : ((List.range entries.length).map (docIdOf entries)).Nodup)
    (_hpresent : ∃ e ∈ entries, e.doc_id = some docId) :
    ∀ r ∈ find_similar_documents entries sim docId k t, r.document_id ≠ docId := by
  intro r hr
  unfold find_similar_documents at hr
  cases hfind : find_document_index entries docId with
  | none => rw [hfind] at hr; simp at hr
  | some di =>
    rw [hfind] at hr
    unfold find_document_index at hfind
    rw [Option.map_eq_some'] at hfind
    obtain ⟨p, hp, hfst⟩ := hfind
    have hcond := List.find?_some hp
    simp only [beq_iff_eq] at hcond
    have hmem := List.mem_enum (List.mem_of_find?_eq_some hp)
    have hdilt : di < entries.length := hfst ▸ hmem.1
    have hdi : docIdOf entries di = docId := by
      subst hfst
      unfold docIdOf
      rw [List.getElem?_eq_getElem hmem.1]
      show (entries[p.1].doc_id).getD ("doc_" ++ toString p.1) = docId
      rw [← hmem.2, hcond]
      rfl
    have hr1 : r ∈ (List.range entries.length).filterMap (fun i =>
        if i ≠ di ∧ t ≤ sim di i then
          some { document_id := docIdOf entries i, similarity_score := sim di i }
        else none) := by
      have h2 := (List.take_sublist k _).subset hr
      exact (pySortByKeyDesc_perm (fun e : SimEntry => e.similarity_score) _).subset h2
    rw [List.mem_filterMap] at hr1
    obtain ⟨i, hirange, hcondr⟩ := hr1
    by_cases hc : i ≠ di ∧ t ≤ sim di i
    · rw [if_pos hc] at hcondr
      have hid : r.document_id = docIdOf entries i := by
        cases hcondr.symm
        rfl
      have hpair : (List.range entries.length).Pairwise
          (fun a b => docIdOf entries a ≠ docIdOf entries b) := List.pairwise_map.mp hnodup
      have hsym : Symmetric (fun a b : Nat => docIdOf entries a ≠ docIdOf entries b) :=
        fun a b h e => h e.symm
      have hne := hpair.forall hsym hirange (List.mem_range.mpr hdilt) hc.1
      rw [hid, ← hdi]
      exact hne
    · rw [if_neg hc] at hcondr
      exact absurd hcondr (by simp)

/-- C3 witness: a two-document index with distinct ids; the query result for
id a never contains an entry with id a. -/
theorem C3_witness :
    ({ document_id := "a", similarity_score := 1 } : SimEntry) ∉
      find_similar_documents
        [{ doc_id := some "a", file_name := none }, { doc_id := some "b", file_name := none }]
        (fun _ _ => 1) "a" 5 0 :=
  fun h =>
    C3_similar_excludes_self _ (fun _ _ => 1) "a" 5 0 (by decide)
      ⟨{ doc_id := some "a", file_name := none }, by decide, rfl⟩ _ h rfl

/-! ## DocumentSimilarityDetector.find_duplicate_documents (C1) -/

/-- The inner loop of find_duplicate_documents: the indices j > i whose
similarity to i reaches the threshold, in ascending order. -/
def simIndices (sim : Nat → Nat → ℚ) (t : ℚ) (n i : Nat) : List Nat :=
  (List.range n).filter (fun j => decide (i < j) && decide (t ≤ sim i j))

/-- The outer loop of find_duplicate_documents. The first list is the remaining
outer indices, the second models the mutable `processed` set. A group entry is
(index, similarity score): the anchor document gets score 1.0, the others the
matrix entry. -/
def findDupAux (sim : Nat → Nat → ℚ) (t : ℚ) (n : Nat) :
    List Nat → List Nat → List (List (Nat × ℚ))
  | [], _ => []
  | i :: rest, processed =>
    if i ∈ processed then findDupAux sim t n rest processed
    else if (simIndices sim t n i).isEmpty then findDupAux sim t n rest (i :: processed)
    else ((i, 1) :: (simIndices sim t n i).map (fun j => (j, sim i j))) ::
      findDupAux sim t n rest ((i :: processed) ++ simIndices sim t n i)

/-- DocumentSimilarityDetector.find_duplicate_documents over a built index of
n documents with similarity matrix sim. -/
def find_duplicate_documents (sim : Nat → Nat → ℚ) (t : ℚ) (n : Nat) :
    List (List (Nat × ℚ)) :=
  findDupAux sim t n (List.range n) []

/-- The disjointness property claimed by C1: no document index appears in two
returned groups. -/
def groupsDisjoint (gs : List (List (Nat × ℚ))) : Prop :=
  gs.Pairwise (fun g1 g2 => ∀ p ∈ g1, ∀ q ∈ g2, p.1 ≠ q.1)

instance : DecidablePred groupsDisjoint := by
  intro gs
  unfold groupsDisjoint
  infer_instance

theorem mem_simIndices {sim : Nat → Nat → ℚ} {t : ℚ} {n i j : Nat}
    (h : j ∈ simIndices sim t n i) : i < j := by
  unfold simIndices at h
  rw [List.mem_filter] at h
  have := h.2
  simp only [Bool.and_eq_true, decide_eq_true_eq] at this
  exact this.1

theorem simIndices_pairwise (sim : Nat → Nat → ℚ) (t : ℚ) (n i : Nat) :
    (simIndices sim t n i).Pairwise (· < ·) :=
  List.Pairwise.sublist (List.filter_sublist _) (List.pairwise_lt_range n)

theorem findDupAux_group_spec (sim : Nat → Nat → ℚ) (t : ℚ) (n : Nat) :
    ∀ (todo proc : List Nat), ∀ g ∈ findDupAux sim t n todo proc,
      ∃ i ∈ todo, g = (i, (1 : ℚ)) :: (simIndices sim t n i).map (fun j => (j, sim i j)) := by
  intro todo
  induction todo with
  | nil => intro proc g hg; simp [findDupAux] at hg
  | cons i rest ih =>
    intro proc g hg
    unfold findDupAux at hg
    by_cases hip : i ∈ proc
    · rw [if_pos hip] at hg
      obtain ⟨j, hj, hgs⟩ := ih _ g hg
      exact ⟨j, List.mem_cons_of_mem _ hj, hgs⟩
    · rw [if_neg hip] at hg
      by_cases hempty : (simIndices sim t n i).isEmpty
      · rw [if_pos hempty] at hg
        obtain ⟨j, hj, hgs⟩ := ih _ g hg
        exact ⟨j, List.mem_cons_of_mem _ hj, hgs⟩
      · rw [if_neg hempty] at hg
        rcases List.mem_cons.mp hg with rfl | hg
        · exact ⟨i, List.mem_cons_self _ _, rfl⟩
        · obtain ⟨j, hj, hgs⟩ := ih _ g hg
          exact ⟨j, List.mem_cons_of_mem _ hj, hgs⟩

theorem findDupAux_heads_lt (sim : Nat → Nat → ℚ) (t : ℚ) (n : Nat) :
    ∀ (todo proc : List Nat), todo.Pairwise (· < ·) →
      ((findDupAux sim t n todo proc).map (fun g => g.headI.1)).Pairwise (· < ·) := by
  intro todo
  induction todo with
  | nil => intro proc _; simp [findDupAux]
  | cons i rest ih =>
    intro proc hp
    have hrest := List.Pairwise.of_cons hp
    have hlt : ∀ x ∈ rest, i < x := fun x hx => List.rel_of_pairwise_cons hp hx
    unfold findDupAux
    by_cases hip : i ∈ proc
    · rw [if_pos hip]
      exact ih _ hrest
    · rw [if_neg hip]
      by_cases hempty : (simIndices sim t n i).isEmpty
      · rw [if_pos hempty]
        exact ih _ hrest
      · rw [if_neg hempty]
        rw [List.map_cons, List.pairwise_cons]
        refine ⟨?_, ih _ hrest⟩
        intro a ha
        rw [List.mem_map] at ha
        obtain ⟨g, hg, rfl⟩ := ha
        obtain ⟨j, hj, rfl⟩ := findDupAux_group_spec sim t n _ _ g hg
        exact hlt j hj

/-- C1 counterexample: three documents whose cosine-similarity matrix is
realizable by unit vectors (see cexSim_realizable). With threshold 0.5 the
greedy pass anchored at 0 groups {0,2}, then the pass anchored at 1, whose
processed-set check only guards the anchor, groups {1,2} again: document 2
appears in both groups, so the returned groups are not disjoint. -/
def cexSim : Nat → Nat → ℚ
  | 0, 2 => mkRat 3 5
  | 2, 0 => mkRat 3 5
  | 1, 2 => mkRat 4 5
  | 2, 1 => mkRat 4 5
  | i, j => if i == j then 1 else 0

/-- Exact dot product of rational vectors. -/
def dotQ : List ℚ → List ℚ → ℚ
  | a :: as, b :: bs => a * b + dotQ as bs
  | _, _ => 0

/-- The counterexample matrix is the cosine-similarity matrix of the three
unit-norm nonnegative vectors (1,0), (0,1), (3/5,4/5): for unit vectors the
cosine is the dot product. -/
theorem cexSim_realizable :
    dotQ [1, 0] [1, 0] = 1 ∧ dotQ [0, 1] [0, 1] = 1 ∧
    dotQ [mkRat 3 5, mkRat 4 5] [mkRat 3 5, mkRat 4 5] = 1 ∧
    dotQ [1, 0] [0, 1] = cexSim 0 1 ∧
    dotQ [1, 0] [mkRat 3 5, mkRat 4 5] = cexSim 0 2 ∧
    dotQ [0, 1] [mkRat 3 5, mkRat 4 5] = cexSim 1 2 := by
  refine ⟨?_, ?_, ?_, ?_, ?_, ?_⟩ <;>
    (simp only [dotQ, cexSim]; norm_num [Rat.mkRat_eq_div])

/-- C1 counterexample theorem: the groups returned on the realizable
three-document corpus above at threshold 0.5 share document index 2, refuting
the claimed disjointness. -/
theorem C1_counterexample :
    find_duplicate_documents cexSim (mkRat 1 2) 3 =
      [[(0, 1), (2, mkRat 3 5)], [(1, 1), (2, mkRat 4 5)]] ∧
    ¬ groupsDisjoint (find_duplicate_documents cexSim (mkRat 1 2) 3) := by
  exact ⟨by decide, by decide⟩

/-- C1 (amended): groups need not be disjoint — a document can be pulled into
several groups as a non-anchor member — but each returned group lists strictly
increasing document indices (so no index repeats inside a group), and the
anchor (first) members of the returned groups are strictly increasing, so no
document anchors two groups. -/
theorem C1_amended_dup_group_anchors (sim : Nat → Nat → ℚ) (t : ℚ) (n : Nat) :
    (∀ g ∈ find_duplicate_documents sim t n, (g.map Prod.fst).Pairwise (· < ·)) ∧
    ((find_duplicate_documents sim t n).map (fun g => g.headI.1)).Pairwise (· < ·) := by
  constructor
  · intro g hg
    obtain ⟨i, _, rfl⟩ := findDupAux_group_spec sim t n _ _ g hg
    rw [List.map_cons, List.map_map]
    have hmap : ((fun p : Nat × ℚ => p.1) ∘ fun j => (j, sim i j)) = id := rfl
    rw [hmap, List.map_id]
    rw [List.pairwise_cons]
    exact ⟨fun j hj => mem_simIndices hj, simIndices_pairwise sim t n i⟩
  · exact findDupAux_heads_lt sim t n _ _ (List.pairwise_lt_range n)

/-! ## DocumentSimilarityDetector.get_similarity_statistics (C2) -/

/-- The statistics record built by get_similarity_statistics. np.std is an
irrational square root, so the model carries its square (the variance); no
claim consults that field. -/
structure SimilarityStats where
  total_documents : Nat
  average_similarity : ℚ
  max_similarity : ℚ
  min_similarity : ℚ
  variance_similarity : ℚ
  high_similarity_count : Nat
  medium_similarity_count : Nat
  low_similarity_count : Nat
deriving DecidableEq

/-- np.triu_indices_from(matrix, k=1): the strict upper triangle of the
pairwise similarity matrix, row-major. -/
def upperTriangle (sim : Nat → Nat → ℚ) (n : Nat) : List ℚ :=
  (List.range n).flatMap (fun i =>
    ((List.range n).filter (fun j => decide (i < j))).map (fun j => sim i j))

/-- The message of the ValueError numpy raises for np.max on an empty array. -/
def maxErrMsg : String :=
  "zero-size array to reduction operation maximum which has no identity"

/-- DocumentSimilarityDetector.get_similarity_statistics over a built index of
n documents. np.mean of an empty slice is NaN (a warning, not an exception),
but np.max on the empty upper triangle raises ValueError, which the enclosing
try/except turns into an error result: the model short-circuits to that error
exactly when the pair list is empty. -/
def get_similarity_statistics (sim : Nat → Nat → ℚ) (n : Nat) :
    Except String SimilarityStats :=
  match upperTriangle sim n with
  | [] => Except.error maxErrMsg
  | x :: xs =>
    let mean := (x :: xs).foldl (· + ·) 0 / ((x :: xs).length : ℚ)
    Except.ok
      { total_documents := n
        average_similarity := mean
        max_similarity := xs.foldl max x
        min_similarity := xs.foldl min x
        variance_similarity :=
          ((x :: xs).map (fun y => (y - mean) ^ 2)).foldl (· + ·) 0 / ((x :: xs).length : ℚ)
        high_similarity_count :=
          ((x :: xs).filter (fun y => decide (mkRat 8 10 < y))).length
        medium_similarity_count :=
          ((x :: xs).filter (fun y => decide (mkRat 1 2 < y) && decide (y ≤ mkRat 8 10))).length
        low_similarity_count :=
          ((x :: xs).filter (fun y => decide (y ≤ mkRat 1 2))).length }

/-- C2 counterexample: on a one-document index the pair set is empty, np.max
raises, the except clause returns an error record: the call does not return a
zero-count statistics record as claimed. -/
theorem C2_counterexample :
    get_similarity_statistics (fun _ _ => 1) 1 = Except.error maxErrMsg ∧
    (get_similarity_statistics (fun _ _ => 1) 1).isOk = false := by
  exact ⟨rfl, rfl⟩

/-- C2 (amended): for every similarity matrix, the statistics call on an index
of exactly one document returns the caught-ValueError error record (it does
not raise, and it does not return a statistics record at all, zero-count or
otherwise). -/
theorem C2_amended_single_doc_stats_error (sim : Nat → Nat → ℚ) :
    get_similarity_statistics sim 1 = Except.error maxErrMsg := rfl

/-! ## Dates and datetime.strptime (daily_agent)

The agent parses date strings with datetime.strptime in the two formats
"%B %d, %Y" and "%Y-%m-%d". The model reproduces the compiled _strptime
regexes: %B is a case-insensitive full month name, %d is (3[01]|[12]d|0[1-9]|[1-9]),
%m is (1[0-2]|0[1-9]|[1-9]), %Y is four digits, a whitespace character in the
format matches a nonempty whitespace run, the whole string must be consumed,
and the resulting (year, month, day) must be a valid proleptic-Gregorian date
(else datetime raises ValueError, caught by the agent). Parsed dates are
midnights; a datetime is modelled as its integer number of seconds,
86400 * toordinal. -/

def isLeapYear (y : Nat) : Bool := y % 4 == 0 && (y % 100 != 0 || y % 400 == 0)

def monthLengths (y : Nat) : List Nat :=
  [31, if isLeapYear y then 29 else 28, 31, 30, 31, 30, 31, 31, 30, 31, 30, 31]

def daysInMonth (y m : Nat) : Nat := (monthLengths y).getD (m - 1) 0

def daysBeforeYear (y : Nat) : Nat :=
  365 * (y - 1) + (y - 1) / 4 + (y - 1) / 400 - (y - 1) / 100

def daysBeforeMonth (y m : Nat) : Nat := ((monthLengths y).take (m - 1)).foldl (· + ·) 0

/-- datetime.date.toordinal: day number in the proleptic Gregorian calendar,
with 0001-01-01 as day 1. -/
def toordinal (y m d : Nat) : Nat := daysBeforeYear y + daysBeforeMonth y m + d

structure PyDate where
  year : Nat
  month : Nat
  day : Nat
deriving DecidableEq

/-- The timestamp (in seconds) of midnight of a parsed date. -/
def tsOf (dt : PyDate) : Int := 86400 * (toordinal dt.year dt.month dt.day : Int)

def digitVal (c : Char) : Nat := c.toNat - 48

/-- Case-insensitive literal match: consume `pat` (given lower-case) from the
front of `s`, returning the remainder. -/
def dropCI : List Char → List Char → Option (List Char)
  | [], rest => some rest
  | _ :: _, [] => none
  | p :: ps, c :: cs => if pyToLower c == p then dropCI ps cs else none

def monthNames : List (List Char × Nat) :=
  [("january".data, 1), ("february".data, 2), ("march".data, 3), ("april".data, 4),
   ("may".data, 5), ("june".data, 6), ("july".data, 7), ("august".data, 8),
   ("september".data, 9), ("october".data, 10), ("november".data, 11), ("december".data, 12)]

/-- Match a full month name (%B, case-insensitive) at the front. No month name
is a prefix of another, so first-match equals longest-match here. -/
def matchMonth : List (List Char × Nat) → List Char → Option (Nat × List Char)
  | [], _ => none
  | (name, m) :: rest, s =>
    match dropCI name s with
    | some r => some (m, r)
    | none => matchMonth rest s

/-- A whitespace character in a strptime format: consume one or more
whitespace characters. -/
def dropWs1 (s : List Char) : Option (List Char) :=
  match s with
  | c :: cs => if isPySpace c then some (cs.dropWhile isPySpace) else none
  | [] => none

/-- datetime constructor validation: MINYEAR is 1 and the day must fit the
month, else ValueError. -/
def mkValidDate (y m d : Nat) : Option PyDate :=
  if 1 ≤ y && 1 ≤ d && d ≤ daysInMonth y m then some ⟨y, m, d⟩ else none

/-- Literal comma, then format whitespace, then %Y = exactly four digits,
then end of string. -/
def parseCommaYear (s : List Char) : Option Nat :=
  match s with
  | ',' :: r =>
    match dropWs1 r with
    | some (a :: b :: c :: d :: []) =>
      if pyIsDigit a && pyIsDigit b && pyIsDigit c && pyIsDigit d then
        some (1000 * digitVal a + 100 * digitVal b + 10 * digitVal c + digitVal d)
      else none
    | _ => none
  | _ => none

/-- The day of "%B %d, %Y": %d prefers a two-digit match (3[01]|[12]d|0[1-9])
and backtracks to one digit ([1-9]) when the following literal comma is
missing. -/
def parseDayThen (m : Nat) (s : List Char) : Option PyDate :=
  match s with
  | c1 :: c2 :: rest =>
    if pyIsDigit c1 && pyIsDigit c2 && decide (1 ≤ 10 * digitVal c1 + digitVal c2)
        && decide (10 * digitVal c1 + digitVal c2 ≤ 31) then
      match parseCommaYear rest with
      | some y => mkValidDate y m (10 * digitVal c1 + digitVal c2)
      | none =>
        if decide (1 ≤ digitVal c1) then
          match parseCommaYear (c2 :: rest) with
          | some y => mkValidDate y m (digitVal c1)
          | none => none
        else none
    else if pyIsDigit c1 && decide (1 ≤ digitVal c1) then
      match parseCommaYear (c2 :: rest) with
      | some y => mkValidDate y m (digitVal c1)
      | none => none
    else none
  | _ => none

/-- strptime(s, "%B %d, %Y"). -/
def parseBdY (s : List Char) : Option PyDate :=
  match matchMonth monthNames s with
  | none => none
  | some (m, r1) =>
    match dropWs1 r1 with
    | none => none
    | some r2 => parseDayThen m r2

/-- The trailing day of "%Y-%m-%d": %d then end of string. -/
def parseDayEnd (y m : Nat) (s : List Char) : Option PyDate :=
  match s with
  | c1 :: c2 :: [] =>
    if pyIsDigit c1 && pyIsDigit c2 && decide (1 ≤ 10 * digitVal c1 + digitVal c2)
        && decide (10 * digitVal c1 + digitVal c2 ≤ 31) then
      mkValidDate y m (10 * digitVal c1 + digitVal c2)
    else none
  | c1 :: [] =>
    if pyIsDigit c1 && decide (1 ≤ digitVal c1) then mkValidDate y m (digitVal c1)
    else none
  | _ => none

/-- The month and day of "%Y-%m-%d": %m = (1[0-2]|0[1-9]|[1-9]), literal
dash, then the day. A two-digit month can only be followed by the literal
dash (backtracking to one digit would put a digit where the dash must be). -/
def parseMD (y : Nat) (s : List Char) : Option PyDate :=
  match s with
  | c1 :: c2 :: rest =>
    if pyIsDigit c1 && pyIsDigit c2 then
      if decide (1 ≤ 10 * digitVal c1 + digitVal c2)
          && decide (10 * digitVal c1 + digitVal c2 ≤ 12) then
        match rest with
        | '-' :: r2 => parseDayEnd y (10 * digitVal c1 + digitVal c2) r2
        | _ => none
      else none
    else if pyIsDigit c1 && decide (1 ≤ digitVal c1) && c2 == '-' then
      parseDayEnd y (digitVal c1) rest
    else none
  | _ => none

/-- strptime(s, "%Y-%m-%d"). -/
def parseYmd (s : List Char) : Option PyDate :=
  match s with
  | a :: b :: c :: d :: '-' :: rest =>
    if pyIsDigit a && pyIsDigit b && pyIsDigit c && pyIsDigit d then
      parseMD (1000 * digitVal a + 100 * digitVal b + 10 * digitVal c + digitVal d) rest
    else none
  | _ => none

/-- The two-format date parsing of the agent: "%B %d, %Y" first, then "%Y-%m-%d";
a string matching neither is treated as absent. -/
def strptime2 (s : String) : Option PyDate :=
  match parseBdY s.data with
  | some d => some d
  | none => parseYmd s.data

/-! ## DailyContractAgent document model and _extract_expiration_date (C10) -/

/-- The metadata keys the agent consults. Absent keys mean not found. -/
structure PyMetadata where
  expiration_date : Option String
  contract_id : Option String
  companies : List String
  file_name : Option String
deriving DecidableEq

structure PyDoc where
  id : String
  metadata : PyMetadata
  content : String
deriving DecidableEq

/-- Characters of the content date capture class [A-Za-z0-9\s,]. -/
def isDateClassChar (c : Char) : Bool :=
  pyIsUpper c || pyIsLower c || pyIsDigit c || isPySpace c || c == ','

/-- re.search of label\s*([A-Za-z0-9\s,]+) (IGNORECASE; label given
lower-case): first position where the label matches and is followed by a
nonempty run of class characters; because \s is inside the class, the
stripped capture is the stripped maximal class run. -/
def scanFirstCapture (label : List Char) : List Char → Option (List Char)
  | [] => none
  | s@(_ :: rest) =>
    match dropCI label s with
    | some r =>
      let cap := r.takeWhile isDateClassChar
      if cap.isEmpty then scanFirstCapture label rest else some (pyStrip cap)
    | none => scanFirstCapture label rest

/-- Consume core + optional s + whitespace + "on" for the patterns
expires?\s+on and terminates?\s+on (IGNORECASE). If the optional s is present
and the rest fails, giving the s back cannot help (the following \s+ would
have to match the letter s), so no further backtracking is modelled. -/
def dropVerbOn (core : List Char) (s : List Char) : Option (List Char) :=
  match dropCI core s with
  | none => none
  | some r =>
    let afterS := match r with
      | c :: cs => if pyToLower c == 's' then cs else r
      | [] => r
    match dropWs1 afterS with
    | none => none
    | some r3 => dropCI ("on".data) r3

/-- re.search of core s?\s+on\s+([A-Za-z0-9\s,]+): after "on" there must be at
least one whitespace character and the maximal class run must leave at least
one character for the capture; the stripped capture is again the stripped
class run. -/
def scanVerbOnCapture (core : List Char) : List Char → Option (List Char)
  | [] => none
  | s@(_ :: rest) =>
    match dropVerbOn core s with
    | some r4 =>
      match r4 with
      | c :: _ =>
        if isPySpace c then
          let cap := r4.takeWhile isDateClassChar
          if decide (2 ≤ cap.length) then some (pyStrip cap)
          else scanVerbOnCapture core rest
        else scanVerbOnCapture core rest
      | [] => scanVerbOnCapture core rest
    | none => scanVerbOnCapture core rest

/-- The content fallback of _extract_expiration_date: the four date patterns
in order; the first match of each pattern is stripped and tried in both formats,
and on parse failure the next pattern is consulted. -/
def scanContentDate (content : String) : Option PyDate :=
  [scanFirstCapture ("expiration date:".data) content.data,
   scanFirstCapture ("end date:".data) content.data,
   scanVerbOnCapture ("expire".data) content.data,
   scanVerbOnCapture ("terminate".data) content.data].foldl
    (fun acc cap =>
      match acc with
      | some d => some d
      | none =>
        match cap with
        | some cs => strptime2 (String.mk cs)
        | none => none) none

/-- The metadata arm of _extract_expiration_date: a truthy expiration_date
string parsed in either format (Python treats the empty string as falsy). -/
def metaDateOf (doc : PyDoc) : Option PyDate :=
  match doc.metadata.expiration_date with
  | some s => if s.isEmpty then none else strptime2 s
  | none => none

/-- DailyContractAgent._extract_expiration_date: metadata first, content regex
fallback otherwise. -/
def extract_expiration_date (doc : PyDoc) : Option Int :=
  match metaDateOf doc with
  | some d => some (tsOf d)
  | none => (scanContentDate doc.content).map tsOf

/-! ## DailyContractAgent._find_expiring_contracts (C6)

datetime.now() is wall-clock time, passed in as the integer parameter `now`
(seconds); the code calls it twice within microseconds, modelled as one value.
timedelta days attribute floors, which is Int.fdiv on seconds. -/

structure ExpiringRecord where
  document_id : String
  expiration_ts : Int
  days_until_expiry : Int
  urgency : String
deriving DecidableEq

/-- The fields of one expiring-contract record, from the extracted expiration
timestamp e and the analysis time now ((e - now).days floors: Int.fdiv). -/
def expRecOf (now : Int) (doc : PyDoc) (e : Int) : ExpiringRecord :=
  { document_id := doc.id, expiration_ts := e,
    days_until_expiry := (e - now).fdiv 86400,
    urgency := get_urgency_level ((e - now).fdiv 86400) }

/-- The per-document body of the _find_expiring_contracts loop: include the
document when its extracted expiration datetime is at most
now + alert_days (a full datetime comparison, finer than whole days). -/
def mkExpiringRecord (now alertDays : Int) (doc : PyDoc) : Option ExpiringRecord :=
  match extract_expiration_date doc with
  | none => none
  | some e => if e ≤ now + alertDays * 86400 then some (expRecOf now doc e) else none

/-- DailyContractAgent._find_expiring_contracts: collect the expiring records
in corpus order, then sort ascending by days_until_expiry (stable). -/
def find_expiring_contracts (docs : List PyDoc) (now alertDays : Int) : List ExpiringRecord :=
  pySortByKey (fun r => r.days_until_expiry) (docs.filterMap (mkExpiringRecord now alertDays))

theorem fdiv_day_mono {a b : Int} (h : a ≤ b) : a.fdiv 86400 ≤ b.fdiv 86400 := by
  rw [Int.fdiv_eq_ediv _ (by norm_num), Int.fdiv_eq_ediv _ (by norm_num)]
  exact Int.ediv_le_ediv (by norm_num) h

theorem mkExpiringRecord_of_le {now w e : Int} {doc : PyDoc}
    (hx : extract_expiration_date doc = some e) (hle : e ≤ now + w * 86400) :
    mkExpiringRecord now w doc = some (expRecOf now doc e) := by
  unfold mkExpiringRecord
  rw [hx]
  show (if e ≤ now + w * 86400 then some (expRecOf now doc e) else none) =
    some (expRecOf now doc e)
  rw [if_pos hle]

theorem mkExpiringRecord_of_gt {now w e : Int} {doc : PyDoc}
    (hx : extract_expiration_date doc = some e) (hgt : now + w * 86400 < e) :
    mkExpiringRecord now w doc = none := by
  unfold mkExpiringRecord
  rw [hx]
  show (if e ≤ now + w * 86400 then some (expRecOf now doc e) else none) = none
  rw [if_neg (by omega)]

/-- C6 counterexample data: a document whose metadata date parses to midnight
of 2026-11-12, analysed at noon of 2026-10-12, 30.5 days earlier. -/
def c6doc : PyDoc :=
  PyDoc.mk "doc-halfday" (PyMetadata.mk (some "2026-11-12") none [] none) ""

def c6now : Int := tsOf ⟨2026, 10, 12⟩ + 43200

/-- C6 counterexample: the days_until_expiry of the document would be 30 (within
the default window 30), yet the cutoff comparison is on full datetimes
(midnight 2026-11-12 is later than noon 2026-11-11), so the document is not
retained: retention is not equivalent to days_until_expiry ≤ window. -/
theorem C6_counterexample :
    extract_expiration_date c6doc = some (tsOf ⟨2026, 11, 12⟩) ∧
    (tsOf ⟨2026, 11, 12⟩ - c6now).fdiv 86400 = 30 ∧
    find_expiring_contracts [c6doc] c6now 30 = [] := by
  exact ⟨by decide, by decide, by decide⟩

/-- C6 (amended): a document is retained if and only if it has an extractable
expiration datetime at most now + window days (a full datetime comparison:
this implies days_until_expiry ≤ window, but a document whose
days_until_expiry floors to exactly the window can be excluded when its
expiration lies later within the cutoff day). Retained records are sorted
ascending by days_until_expiry with ties kept in original document order, and
a document whose date is exactly 5 days from now is retained by
find_expiring(30) with days_until_expiry = 5 and urgency CRITICAL. -/
theorem C6_amended_find_expiring (docs : List PyDoc) (now w : Int) :
    (∀ r ∈ find_expiring_contracts docs now w,
      ∃ doc ∈ docs, mkExpiringRecord now w doc = some r) ∧
    (∀ doc ∈ docs, ∀ e, extract_expiration_date doc = some e →
      (e ≤ now + w * 86400 → expRecOf now doc e ∈ find_expiring_contracts docs now w) ∧
      (now + w * 86400 < e → mkExpiringRecord now w doc = none)) ∧
    (∀ r ∈ find_expiring_contracts docs now w, r.days_until_expiry ≤ w) ∧
    (find_expiring_contracts docs now w).Pairwise
      (fun a b => a.days_until_expiry ≤ b.days_until_expiry) ∧
    (∀ v : Int, (find_expiring_contracts docs now w).filter
        (fun r => decide (r.days_until_expiry = v)) =
      (docs.filterMap (mkExpiringRecord now w)).filter
        (fun r => decide (r.days_until_expiry = v))) ∧
    (∀ doc ∈ docs, extract_expiration_date doc = some (now + 5 * 86400) →
      expRecOf now doc (now + 5 * 86400) ∈ find_expiring_contracts docs now 30 ∧
      (expRecOf now doc (now + 5 * 86400)).days_until_expiry = 5 ∧
      (expRecOf now doc (now + 5 * 86400)).urgency = "CRITICAL") := by
  have hkey : ∀ (w2 : Int) (doc : PyDoc) (e : Int), doc ∈ docs →
      extract_expiration_date doc = some e → e ≤ now + w2 * 86400 →
      expRecOf now doc e ∈ find_expiring_contracts docs now w2 := by
    intro w2 doc e hdoc hx hle
    have hmem : expRecOf now doc e ∈ docs.filterMap (mkExpiringRecord now w2) :=
      List.mem_filterMap.mpr ⟨doc, hdoc, mkExpiringRecord_of_le hx hle⟩
    exact (pySortByKey_perm (fun r : ExpiringRecord => r.days_until_expiry)
      (docs.filterMap (mkExpiringRecord now w2))).symm.subset hmem
  have hdays5 : ((now + 5 * 86400) - now).fdiv 86400 = 5 := by
    have h1 : (now + 5 * 86400) - now = 5 * 86400 := by ring
    rw [h1]
    exact Int.mul_fdiv_cancel 5 (by norm_num)
  refine ⟨?_, ?_, ?_, ?_, ?_, ?_⟩
  · intro r hr
    have hr2 : r ∈ docs.filterMap (mkExpiringRecord now w) :=
      (pySortByKey_perm (fun r : ExpiringRecord => r.days_until_expiry) _).subset hr
    exact List.mem_filterMap.mp hr2
  · intro doc hdoc e hx
    exact ⟨fun hle => hkey w doc e hdoc hx hle, fun hgt => mkExpiringRecord_of_gt hx hgt⟩
  · intro r hr
    have hr2 : r ∈ docs.filterMap (mkExpiringRecord now w) :=
      (pySortByKey_perm (fun r : ExpiringRecord => r.days_until_expiry) _).subset hr
    obtain ⟨doc, _, hmk⟩ := List.mem_filterMap.mp hr2
    cases hx : extract_expiration_date doc with
    | none =>
      unfold mkExpiringRecord at hmk
      rw [hx] at hmk
      exact absurd hmk (by simp)
    | some e =>
      by_cases hle : e ≤ now + w * 86400
      · rw [mkExpiringRecord_of_le hx hle] at hmk
        have hr3 := Option.some.inj hmk
        have hdays : r.days_until_expiry = (e - now).fdiv 86400 := by
          rw [← hr3]
          rfl
        rw [hdays]
        calc (e - now).fdiv 86400 ≤ (w * 86400).fdiv 86400 := fdiv_day_mono (by omega)
          _ = w := Int.mul_fdiv_cancel w (by norm_num)
      · rw [mkExpiringRecord_of_gt hx (by omega)] at hmk
        exact absurd hmk (by simp)
  · exact pySortByKey_sorted _ _
  · intro v
    exact pySortByKey_stable (fun r : ExpiringRecord => r.days_until_expiry) _ v
  · intro doc hdoc hx
    refine ⟨hkey 30 doc (now + 5 * 86400) hdoc hx (by omega), ?_, ?_⟩
    · show ((now + 5 * 86400) - now).fdiv 86400 = 5
      exact hdays5
    · show get_urgency_level (((now + 5 * 86400) - now).fdiv 86400) = "CRITICAL"
      rw [hdays5]
      rfl

/-- C6 witness: analysed at midnight 2026-10-12, a document whose metadata
date is 2026-10-17 (exactly 5 days later) is retained with days 5, CRITICAL. -/
theorem C6_witness :
    expRecOf (tsOf ⟨2026, 10, 12⟩)
        (PyDoc.mk "doc-5d" (PyMetadata.mk (some "2026-10-17") none [] none) "")
        (tsOf ⟨2026, 10, 12⟩ + 5 * 86400)
      ∈ find_expiring_contracts
        [PyDoc.mk "doc-5d" (PyMetadata.mk (some "2026-10-17") none [] none) ""]
        (tsOf ⟨2026, 10, 12⟩) 30 ∧
    (expRecOf (tsOf ⟨2026, 10, 12⟩)
        (PyDoc.mk "doc-5d" (PyMetadata.mk (some "2026-10-17") none [] none) "")
        (tsOf ⟨2026, 10, 12⟩ + 5 * 86400)).days_until_expiry = 5 ∧
    (expRecOf (tsOf ⟨2026, 10, 12⟩)
        (PyDoc.mk "doc-5d" (PyMetadata.mk (some "2026-10-17") none [] none) "")
        (tsOf ⟨2026, 10, 12⟩ + 5 * 86400)).urgency = "CRITICAL" :=
  (C6_amended_find_expiring
      [PyDoc.mk "doc-5d" (PyMetadata.mk (some "2026-10-17") none [] none) ""]
      (tsOf ⟨2026, 10, 12⟩) 30).2.2.2.2.2
    (PyDoc.mk "doc-5d" (PyMetadata.mk (some "2026-10-17") none [] none) "")
    (List.mem_cons_self _ _) (by decide)

/-! ## Claim C10: metadata precedence in _extract_expiration_date -/

/-- C10: whenever the metadata expiration_date string parses in either
accepted format, the extracted date is the parsed metadata date and the
document content is irrelevant (it is never scanned); the content regex
fallback is consulted exactly when the metadata key is absent or its value
parses in neither format. -/
theorem C10_metadata_precedence (doc : PyDoc) :
    (∀ s dt, doc.metadata.expiration_date = some s → strptime2 s = some dt →
      extract_expiration_date doc = some (tsOf dt) ∧
      ∀ c : String, extract_expiration_date (PyDoc.mk doc.id doc.metadata c) = some (tsOf dt)) ∧
    ((∀ s, doc.metadata.expiration_date = some s → strptime2 s = none) →
      extract_expiration_date doc = (scanContentDate doc.content).map tsOf) := by
  constructor
  · intro s dt hmd hparse
    have hs : s.isEmpty = false := by
      cases he : s.isEmpty
      · rfl
      · exfalso
        rw [(String.isEmpty_iff s).mp he] at hparse
        have h0 : strptime2 "" = none := by decide
        rw [h0] at hparse
        exact Option.noConfusion hparse
    have hmeta : ∀ c : String, metaDateOf (PyDoc.mk doc.id doc.metadata c) = some dt := by
      intro c
      unfold metaDateOf
      rw [hmd]
      show (if s.isEmpty = true then none else strptime2 s) = some dt
      rw [hs]
      simp only [Bool.false_eq_true, if_false]
      exact hparse
    have hext : ∀ c : String,
        extract_expiration_date (PyDoc.mk doc.id doc.metadata c) = some (tsOf dt) := by
      intro c
      unfold extract_expiration_date
      rw [hmeta c]
    exact ⟨hext doc.content, hext⟩
  · intro hnone
    have hmeta : metaDateOf doc = none := by
      unfold metaDateOf
      cases hmd : doc.metadata.expiration_date with
      | none => rfl
      | some s =>
        show (if s.isEmpty = true then none else strptime2 s) = none
        cases he : s.isEmpty
        · simp only [Bool.false_eq_true, if_false]
          exact hnone s hmd
        · rfl
    unfold extract_expiration_date
    rw [hmeta]

/-- C10 witness: a concrete document with a parsable metadata date and a
different date in the content; the metadata date wins and the content is
irrelevant. -/
theorem C10_witness :
    extract_expiration_date
        (PyDoc.mk "d" (PyMetadata.mk (some "January 5, 2026") none [] none)
          "Expiration Date: March 9, 2030.") = some (tsOf ⟨2026, 1, 5⟩) ∧
    extract_expiration_date
        (PyDoc.mk "d" (PyMetadata.mk (some "January 5, 2026") none [] none) "")
        = some (tsOf ⟨2026, 1, 5⟩) :=
  have h := (C10_metadata_precedence
      (PyDoc.mk "d" (PyMetadata.mk (some "January 5, 2026") none [] none)
        "Expiration Date: March 9, 2030.")).1 "January 5, 2026" ⟨2026, 1, 5⟩ rfl (by decide)
  ⟨h.1, h.2 ""⟩

/-! ## DailyContractAgent conflict detection (C7, C8) -/

/-- One (document, address) observation collected for a company. -/
structure AddrObs where
  address : String
  document : String
  document_id : String
deriving DecidableEq

/-- One (document, parsed date) observation collected for a contract id. -/
structure DateObs where
  date : Int
  document : String
  document_id : String
deriving DecidableEq

/-- One contact-information observation collected for a company: the first
match of each of the Contact:/Email:/Phone: patterns, when any is present. -/
structure ContactObs where
  contact : Option String
  email : Option String
  phone : Option String
  document : String
  document_id : String
deriving DecidableEq

/-- The structured conflict records (the code tags dicts with a type field). -/
inductive Conflict
  | address (company : String) (conflicting_addresses : List AddrObs)
      (description : String) (severity : String)
  | date (contract_id : String) (conflicting_dates : List DateObs)
      (description : String) (severity : String)
  | contact (company : String) (conflicting_info : List ContactObs)
      (description : String) (severity : String)
deriving DecidableEq

/-- re.findall of label\s*([^\n]+) (IGNORECASE, label given lower-case),
captures stripped. \s* also eats newlines, so a capture starts at the first
non-whitespace character after the label and runs to the end of line; a label
followed only by whitespace up to the end of the string still yields one
(empty after strip) capture when that whitespace has a non-newline character
(the regex backtracks into it). Scanning resumes after each match. -/
def findAllLine (label : List Char) : Nat → List Char → List (List Char)
  | 0, _ => []
  | _ + 1, [] => []
  | fuel + 1, s@(_ :: rest) =>
    match dropCI label s with
    | some r =>
      let afterWs := r.dropWhile isPySpace
      match afterWs with
      | _ :: _ =>
        let cap := afterWs.takeWhile (fun ch => ch != '\n')
        pyStrip cap :: findAllLine label fuel (afterWs.drop cap.length)
      | [] => if (r.takeWhile isPySpace).any (fun ch => ch != '\n') then [[]] else []
    | none => findAllLine label fuel rest

def findAll (label : List Char) (s : List Char) : List (List Char) :=
  findAllLine label (s.length + 1) s

/-- The three address patterns of _detect_address_conflicts, in order. -/
def address_labels : List String := ["address:", "business address:", "office address:"]

/-- All addresses extracted from the content of one document: per pattern, all
matches, each stripped. -/
def extractAddresses (content : String) : List String :=
  address_labels.flatMap (fun lab => (findAll lab.data content.data).map String.mk)

/-- Append a value to the list of a key in an insertion-ordered dict (Python
defaultdict-style usage: create the key at the end on first sight). -/
def dictAppend {β : Type} (k : String) (v : β) :
    List (String × List β) → List (String × List β)
  | [] => [(k, [v])]
  | (k2, vs) :: rest =>
    if k2 = k then (k2, vs ++ [v]) :: rest else (k2, vs) :: dictAppend k v rest

/-- Ensure a key is present (with an empty list) in an insertion-ordered dict. -/
def dictEnsure {β : Type} (k : String) :
    List (String × List β) → List (String × List β)
  | [] => [(k, [])]
  | (k2, vs) :: rest =>
    if k2 = k then (k2, vs) :: rest else (k2, vs) :: dictEnsure k rest

/-- The company_addresses dict of _detect_address_conflicts: for every
document, every extracted address, every company of the document, append the
observation. -/
def company_addresses (docs : List PyDoc) : List (String × List AddrObs) :=
  docs.foldl (fun acc doc =>
    (extractAddresses doc.content).foldl (fun acc2 addr =>
      doc.metadata.companies.foldl (fun acc3 comp =>
        dictAppend comp
          (AddrObs.mk addr (doc.metadata.file_name.getD "Unknown") doc.id) acc3)
        acc2)
      acc)
    []

/-- Model of _detect_address_conflicts: one HIGH conflict per company with more than
one distinct address string, listing every observation. -/
def detect_address_conflicts (docs : List PyDoc) : List Conflict :=
  (company_addresses docs).filterMap (fun p =>
    if 1 < (p.2.map (fun o => o.address)).dedup.length then
      some (Conflict.address p.1 p.2 ("Multiple addresses found for " ++ p.1) "HIGH")
    else none)

/-- The contract_dates dict of _detect_date_conflicts: documents with a truthy
contract_id and an extractable expiration date contribute one observation. -/
def contract_dates (docs : List PyDoc) : List (String × List DateObs) :=
  docs.foldl (fun acc doc =>
    match doc.metadata.contract_id with
    | none => acc
    | some cid =>
      if cid.isEmpty then acc
      else
        match extract_expiration_date doc with
        | none => acc
        | some e =>
          dictAppend cid
            (DateObs.mk e (doc.metadata.file_name.getD "Unknown") doc.id) acc)
    []

/-- Model of _detect_date_conflicts: one HIGH conflict per contract id with more than
one distinct parsed expiration date. -/
def detect_date_conflicts (docs : List PyDoc) : List Conflict :=
  (contract_dates docs).filterMap (fun p =>
    if 1 < (p.2.map (fun o => o.date)).dedup.length then
      some (Conflict.date p.1 p.2
        ("Multiple expiration dates found for contract " ++ p.1) "HIGH")
    else none)

/-- The first match of one contact pattern label:\s*([^\n]+), stripped
(re.search equals the head of re.findall, both scan left to right). -/
def searchLine (label : List Char) (content : List Char) : Option String :=
  ((findAll label content).head?).map String.mk

/-- The contact_info extracted from the content of one document. -/
def contactInfoOf (content : String) (document : String) (docId : String) : ContactObs :=
  ContactObs.mk (searchLine ("contact:".data) content.data)
    (searchLine ("email:".data) content.data)
    (searchLine ("phone:".data) content.data) document docId

/-- The company_info dict of _detect_company_conflicts: every company of every
document gets a key; an observation is appended only when some contact field
matched. -/
def company_info (docs : List PyDoc) : List (String × List ContactObs) :=
  docs.foldl (fun acc doc =>
    doc.metadata.companies.foldl (fun acc2 comp =>
      let ci := contactInfoOf doc.content (doc.metadata.file_name.getD "Unknown") doc.id
      let acc3 := dictEnsure comp acc2
      if ci.contact.isSome || ci.email.isSome || ci.phone.isSome then
        dictAppend comp ci acc3
      else acc3)
      acc)
    []

/-- Model of _detect_company_conflicts: one MEDIUM conflict per company with more than
one observation and more than one distinct email or phone. -/
def detect_company_conflicts (docs : List PyDoc) : List Conflict :=
  (company_info docs).filterMap (fun p =>
    if 1 < p.2.length then
      if 1 < (p.2.filterMap (fun o => o.email)).dedup.length
          || 1 < (p.2.filterMap (fun o => o.phone)).dedup.length then
        some (Conflict.contact p.1 p.2
          ("Multiple contact information found for " ++ p.1) "MEDIUM")
      else none
    else none)

/-- DailyContractAgent._detect_conflicts: the three passes concatenated. -/
def detect_conflicts (docs : List PyDoc) : List Conflict :=
  detect_address_conflicts docs ++ detect_date_conflicts docs ++
    detect_company_conflicts docs

/-! ## C7: uniqueness and contents of address conflicts -/

/-- Recognizes the address-conflict records of a given company. -/
def isAddressConflictFor (c : String) : Conflict → Bool
  | Conflict.address c2 _ _ _ => c2 == c
  | _ => false

theorem mem_keys_dictAppend {β : Type} {k x : String} {v : β} :
    ∀ {l : List (String × List β)},
      x ∈ (dictAppend k v l).map Prod.fst ↔ x ∈ l.map Prod.fst ∨ x = k := by
  intro l
  induction l with
  | nil => simp [dictAppend]
  | cons p rest ih =>
    obtain ⟨k2, vs⟩ := p
    by_cases hk : k2 = k
    · simp only [dictAppend, if_pos hk, List.map_cons, List.mem_cons]
      subst hk
      tauto
    · simp only [dictAppend, if_neg hk, List.map_cons, List.mem_cons, ih]
      tauto

theorem keys_nodup_dictAppend {β : Type} {k : String} {v : β} :
    ∀ {l : List (String × List β)}, (l.map Prod.fst).Nodup →
      ((dictAppend k v l).map Prod.fst).Nodup := by
  intro l
  induction l with
  | nil => simp [dictAppend]
  | cons p rest ih =>
    intro h
    obtain ⟨k2, vs⟩ := p
    simp only [List.map_cons, List.nodup_cons] at h
    by_cases hk : k2 = k
    · simp only [dictAppend, if_pos hk, List.map_cons, List.nodup_cons]
      exact h
    · simp only [dictAppend, if_neg hk, List.map_cons, List.nodup_cons]
      refine ⟨?_, ih h.2⟩
      intro hmem
      rcases mem_keys_dictAppend.mp hmem with h1 | rfl
      · exact h.1 h1
      · exact hk rfl

theorem foldl_preserve {α σ : Type} (P : σ → Prop) (f : σ → α → σ)
    (hf : ∀ s a, P s → P (f s a)) :
    ∀ (l : List α) (s : σ), P s → P (l.foldl f s) := by
  intro l
  induction l with
  | nil => intro s hs; exact hs
  | cons a rest ih => intro s hs; exact ih _ (hf s a hs)

theorem company_addresses_keys_nodup (docs : List PyDoc) :
    ((company_addresses docs).map Prod.fst).Nodup := by
  unfold company_addresses
  have base : ((([] : List (String × List AddrObs))).map Prod.fst).Nodup := by simp
  refine foldl_preserve
    (fun d : List (String × List AddrObs) => (d.map Prod.fst).Nodup) _ ?_ docs [] base
  intro acc doc hacc
  refine foldl_preserve
    (fun d : List (String × List AddrObs) => (d.map Prod.fst).Nodup) _ ?_ _ acc hacc
  intro acc2 addr hacc2
  refine foldl_preserve
    (fun d : List (String × List AddrObs) => (d.map Prod.fst).Nodup) _ ?_ _ acc2 hacc2
  intro acc3 comp hacc3
  exact keys_nodup_dictAppend hacc3

theorem date_conflicts_not_address {docs : List PyDoc} {c : String} {x : Conflict}
    (hx : x ∈ detect_date_conflicts docs) : isAddressConflictFor c x = false := by
  unfold detect_date_conflicts at hx
  rw [List.mem_filterMap] at hx
  obtain ⟨p, _, hp⟩ := hx
  by_cases hcond : 1 < (p.2.map (fun o => o.date)).dedup.length
  · rw [if_pos hcond] at hp
    rw [← Option.some.inj hp]
    rfl
  · rw [if_neg hcond] at hp
    exact absurd hp (by simp)

theorem company_conflicts_not_address {docs : List PyDoc} {c : String} {x : Conflict}
    (hx : x ∈ detect_company_conflicts docs) : isAddressConflictFor c x = false := by
  unfold detect_company_conflicts at hx
  rw [List.mem_filterMap] at hx
  obtain ⟨p, _, hp⟩ := hx
  by_cases h1 : 1 < p.2.length
  · rw [if_pos h1] at hp
    by_cases h2 : 1 < (p.2.filterMap (fun o => o.email)).dedup.length
        || 1 < (p.2.filterMap (fun o => o.phone)).dedup.length
    · rw [if_pos h2] at hp
      rw [← Option.some.inj hp]
      rfl
    · rw [if_neg h2] at hp
      exact absurd hp (by simp)
  · rw [if_neg h1] at hp
    exact absurd hp (by simp)

theorem addr_filterMap_filter (c : String) (obs : List AddrObs) :
    ∀ (ca : List (String × List AddrObs)), ((ca.map Prod.fst).Nodup) →
      (c, obs) ∈ ca → 1 < (obs.map (fun o => o.address)).dedup.length →
      ((ca.filterMap (fun p =>
          if 1 < (p.2.map (fun o => o.address)).dedup.length then
            some (Conflict.address p.1 p.2 ("Multiple addresses found for " ++ p.1) "HIGH")
          else none)).filter (isAddressConflictFor c)) =
        [Conflict.address c obs ("Multiple addresses found for " ++ c) "HIGH"] := by
  intro ca
  induction ca with
  | nil => intro _ hmem _; simp at hmem
  | cons p rest ih =>
    intro hnd hmem hmulti
    obtain ⟨k2, vs⟩ := p
    simp only [List.map_cons, List.nodup_cons] at hnd
    rcases List.mem_cons.mp hmem with heq | hmem2
    · rw [Prod.mk.injEq] at heq
      obtain ⟨h1, h2⟩ := heq
      subst h1
      subst h2
      have hcnotin : ∀ q ∈ rest, q.1 ≠ c := by
        intro q hq hqc
        exact hnd.1 (hqc ▸ List.mem_map_of_mem Prod.fst hq)
      rw [List.filterMap_cons]
      simp only
      rw [if_pos hmulti]
      rw [List.filter_cons]
      have hc1 : isAddressConflictFor c
          (Conflict.address c obs ("Multiple addresses found for " ++ c) "HIGH") = true := by
        simp [isAddressConflictFor]
      rw [if_pos hc1]
      have hrest0 : ((rest.filterMap (fun p =>
          if 1 < (p.2.map (fun o => o.address)).dedup.length then
            some (Conflict.address p.1 p.2 ("Multiple addresses found for " ++ p.1) "HIGH")
          else none)).filter (isAddressConflictFor c)) = [] := by
        rw [List.filter_eq_nil_iff]
        intro x hx
        rw [List.mem_filterMap] at hx
        obtain ⟨q, hq, hqx⟩ := hx
        by_cases hcond : 1 < (q.2.map (fun o => o.address)).dedup.length
        · rw [if_pos hcond] at hqx
          rw [← Option.some.inj hqx]
          simp only [isAddressConflictFor, beq_iff_eq]
          intro hqq
          exact hcnotin q hq (by simpa using hqq)
        · rw [if_neg hcond] at hqx
          exact absurd hqx (by simp)
      rw [hrest0]
    · have hpne : k2 ≠ c := by
        intro hpc
        apply hnd.1
        rw [hpc]
        exact List.mem_map_of_mem Prod.fst hmem2
      rw [List.filterMap_cons]
      simp only
      by_cases hcond : 1 < (vs.map (fun o => o.address)).dedup.length
      · rw [if_pos hcond, List.filter_cons]
        have hc0 : isAddressConflictFor c
            (Conflict.address k2 vs ("Multiple addresses found for " ++ k2) "HIGH")
            = false := by
          simp only [isAddressConflictFor, beq_iff_eq]
          simpa using hpne
        rw [hc0]
        simp only [Bool.false_eq_true, if_false]
        exact ih hnd.2 hmem2 hmulti
      · rw [if_neg hcond]
        exact ih hnd.2 hmem2 hmulti

/-- C7: if the company_addresses grouping associates company c with
observation list obs containing more than one distinct address string, then
detect_conflicts emits exactly one address conflict for c: severity HIGH,
listing every (document, address) observation of c. -/
theorem C7_address_conflict_unique (docs : List PyDoc) (c : String) (obs : List AddrObs)
    (hmem : (c, obs) ∈ company_addresses docs)
    (hmulti : 1 < (obs.map (fun o => o.address)).dedup.length) :
    (detect_conflicts docs).filter (isAddressConflictFor c) =
      [Conflict.address c obs ("Multiple addresses found for " ++ c) "HIGH"] := by
  unfold detect_conflicts
  rw [List.filter_append, List.filter_append]
  have hdate : (detect_date_conflicts docs).filter (isAddressConflictFor c) = [] := by
    rw [List.filter_eq_nil_iff]
    intro x hx
    simp [date_conflicts_not_address (c := c) hx]
  have hcont : (detect_company_conflicts docs).filter (isAddressConflictFor c) = [] := by
    rw [List.filter_eq_nil_iff]
    intro x hx
    simp [company_conflicts_not_address (c := c) hx]
  rw [hdate, hcont]
  rw [List.append_nil, List.append_nil]
  exact addr_filterMap_filter c obs (company_addresses docs)
    (company_addresses_keys_nodup docs) hmem hmulti

/-- C7 witness: the Acme instance from the claim, two documents with
different addresses for the same company. -/
theorem C7_witness :
    (detect_conflicts
        [PyDoc.mk "doc1" (PyMetadata.mk none none ["Acme"] (some "a.txt"))
          "Address: 123 Main St",
         PyDoc.mk "doc2" (PyMetadata.mk none none ["Acme"] (some "b.txt"))
          "Address: 456 Main St"]).filter (isAddressConflictFor "Acme") =
      [Conflict.address "Acme"
        [AddrObs.mk "123 Main St" "a.txt" "doc1", AddrObs.mk "456 Main St" "b.txt" "doc2"]
        ("Multiple addresses found for " ++ "Acme") "HIGH"] :=
  C7_address_conflict_unique _ "Acme"
    [AddrObs.mk "123 Main St" "a.txt" "doc1", AddrObs.mk "456 Main St" "b.txt" "doc2"]
    (by decide) (by decide)

/-! ## C8: determinism of conflict detection -/

/-- C8: conflict detection is a pure function of the document list — every
Python construct it uses (insertion-ordered dicts, list iteration, regex
scanning, set cardinalities) is deterministic — so two runs over the same
unchanged document list return identical record lists (hence the same set),
and the records are emitted in the deterministic order: address conflicts,
then date conflicts, then contact conflicts, each in first-insertion order of
its group key. -/
theorem C8_detect_conflicts_deterministic (docs : List PyDoc) :
    detect_conflicts docs = detect_conflicts docs ∧
    detect_conflicts docs =
      detect_address_conflicts docs ++ detect_date_conflicts docs ++
        detect_company_conflicts docs :=
  ⟨rfl, rfl⟩
